import Mathlib

/-!
Verification of NVDA's `source/languageHandler.py` locale resolution and
fallback logic.  Python strings are embedded as `List Char` (`PyStr`);
the Python string methods used by the module (`replace`, `split`, `join`,
`lower`, `upper`, `find`, `format`, the `in` operator) are given explicit
characterwise definitions below.  Case mapping is modelled on the ASCII
range, which covers every string the module manipulates.  External
collaborators (Win32 calls, Python's `locale` and `gettext` machinery,
directory enumeration) are parameters collected in the `Env` structure;
the module-level mutable globals (`curLang`, the thread locale, the
installed catalog, the process formatting locale) form `LHState`.
Operations that can let a Python exception escape return the final state
together with an optional escaped error.
-/

namespace LangHandler

/-- Python strings, embedded as lists of characters. -/
abbrev PyStr := List Char

/-- The ASCII upper/lower case pairs, used to model Python's
`str.lower` / `str.upper` on the strings this module handles. -/
def caseTable : List (Char × Char) :=
  [('A', 'a'), ('B', 'b'), ('C', 'c'), ('D', 'd'), ('E', 'e'), ('F', 'f'),
   ('G', 'g'), ('H', 'h'), ('I', 'i'), ('J', 'j'), ('K', 'k'), ('L', 'l'),
   ('M', 'm'), ('N', 'n'), ('O', 'o'), ('P', 'p'), ('Q', 'q'), ('R', 'r'),
   ('S', 's'), ('T', 't'), ('U', 'u'), ('V', 'v'), ('W', 'w'), ('X', 'x'),
   ('Y', 'y'), ('Z', 'z')]

/-- Characterwise lower-casing (Python `str.lower` on ASCII). -/
def charLower (c : Char) : Char :=
  match caseTable.find? (fun p => p.1 = c) with
  | some p => p.2
  | none => c

/-- Characterwise upper-casing (Python `str.upper` on ASCII). -/
def charUpper (c : Char) : Char :=
  match caseTable.find? (fun p => p.2 = c) with
  | some p => p.1
  | none => c

/-- Python `s.lower()`. -/
def pyLower (s : PyStr) : PyStr := s.map charLower

/-- Python `s.upper()`. -/
def pyUpper (s : PyStr) : PyStr := s.map charUpper

/-- Python `s.replace(a, b)` for single-character arguments. -/
def pyReplace (a b : Char) (s : PyStr) : PyStr :=
  s.map (fun c => if c = a then b else c)

/-- Python `s.split(sep)` for a single-character separator, presented as
the first piece together with the remaining pieces (the result list of
`split` is always non-empty). -/
def pySplit (sep : Char) : PyStr → PyStr × List PyStr
  | [] => ([], [])
  | c :: cs =>
    let r := pySplit sep cs
    if c = sep then ([], r.1 :: r.2) else (c :: r.1, r.2)

/-- The full piece list of Python `s.split(sep)`. -/
def pySplitList (sep : Char) (s : PyStr) : List PyStr :=
  (pySplit sep s).1 :: (pySplit sep s).2

/-- Python `sep.join(pieces)` for a single-character separator. -/
def pyJoin (sep : Char) : List PyStr → PyStr
  | [] => []
  | [p] => p
  | p :: q :: ps => p ++ sep :: pyJoin sep (q :: ps)

/-- Source `languageHandler.py` lines 270-283, `normalizeLanguage`:
replace dashes by underscores, split on underscores, lower-case the
language segment, filter the meta language `x`, upper-case the dialect
segment when present, and re-join. -/
def normalizeLanguage (lang : PyStr) : Option PyStr :=
  let lang1 := pyReplace '-' '_' lang
  let ld := pySplit '_' lang1
  let l0 := pyLower ld.1
  if l0 = "x".toList then none
  else
    match ld.2 with
    | [] => some (pyJoin '_' [l0])
    | l1 :: rest => some (pyJoin '_' (l0 :: pyUpper l1 :: rest))

/-- Python `s.find(pat)` helper: index of the first occurrence of `pat`
in the string, scanning from position `i`. -/
def pyFindAux (pat : PyStr) : PyStr → Nat → Option Nat
  | [], i => if pat = [] then some i else none
  | c :: cs, i => if pat.isPrefixOf (c :: cs) then some i else pyFindAux pat cs (i + 1)

/-- Python `s.find(pat)`: index of the first occurrence, or `-1`. -/
def pyFind (s pat : PyStr) : Int :=
  match pyFindAux pat s 0 with
  | some i => (i : Int)
  | none => -1

/-- Lexicographic comparison of strings by character code
(Python's `<=` on `str`, used by `list.sort`). -/
def pyStrLe : PyStr → PyStr → Bool
  | [], _ => true
  | _ :: _, [] => false
  | a :: xs, b :: ys => if a = b then pyStrLe xs ys else decide (a < b)

/-- Insertion into a sorted list, for the model of Python `list.sort`. -/
def insertLe {α : Type} (le : α → α → Bool) (a : α) : List α → List α
  | [] => [a]
  | b :: bs => if le a b then a :: b :: bs else b :: insertLe le a bs

/-- Model of Python `list.sort` (insertion sort; the claims below only
depend on the result being a permutation of the input). -/
def pySort {α : Type} (le : α → α → Bool) : List α → List α
  | [] => []
  | a :: rest => insertLe le a (pySort le rest)

/-- One pass of Python `str.format` over the template, substituting the
two named placeholders used at line 114 of the source
(`\x7bdesc\x7d` and `\x7blc\x7d`). -/
def pyFormatAux (desc lc : PyStr) : PyStr → PyStr
  | '\x7b' :: 'd' :: 'e' :: 's' :: 'c' :: '\x7d' :: cs => desc ++ pyFormatAux desc lc cs
  | '\x7b' :: 'l' :: 'c' :: '\x7d' :: cs => lc ++ pyFormatAux desc lc cs
  | c :: cs => c :: pyFormatAux desc lc cs
  | [] => []

/-- Python `pattern.format(desc=d, lc=l)` for the display pattern. -/
def pyFormat (template desc lc : PyStr) : PyStr := pyFormatAux desc lc template

/-- Windows locale constant, source line 21. -/
def LOCALE_SLANGDISPLAYNAME : Nat := 0x6f

/-- Windows locale constant, source line 19. -/
def LOCALE_SLANGUAGE : Nat := 0x2

/-- Windows sentinel for any unrecognized custom locale, source line 23. -/
def LOCALE_CUSTOM_UNSPECIFIED : Nat := 0x1000

/-- Sentinel meaning "the locale name has no LCID", source line 28. -/
def LCID_NONE : Nat := 0

/-- A Python exception escaping one of the modelled operations. -/
inductive PyError : Type where
  /-- The `locale.Error` from an unguarded `locale.setlocale` call. -/
  | localeError : PyError
  /-- The `KeyError` from an unguarded dictionary lookup. -/
  | keyError : PyError
  /-- The non-`IOError` exception raised by `gettext.translation` when the
  languages list contains `None` instead of a string. -/
  | typeError : PyError
deriving DecidableEq, Repr

/-- The translation catalog currently installed by `trans.install()`. -/
inductive Catalog : Type where
  /-- No catalog installed yet (state at module load). -/
  | uninstalled : Catalog
  /-- The catalog loaded for a given locale name. -/
  | ofLang (l : PyStr) : Catalog
  /-- The built-in fallback catalog (`gettext.translation` with `fallback=True`). -/
  | fallback : Catalog
deriving DecidableEq, Repr

/-- Outcomes of the external collaborators consumed by the module: Win32
calls, Python's `locale` and `gettext` machinery, directory enumeration,
and the translated presentation strings. -/
structure Env : Type where
  /-- The call `ctypes.windll.kernel32.LocaleNameToLCID(name, 0)`. -/
  osLocaleNameToLCID : PyStr → Nat
  /-- Whether the thread-locale block (`localeNameToWindowsLCID` plus
  `SetThreadLocale`) raises the `IOError` caught at source line 170. -/
  threadLocaleRaises : Nat → Bool
  /-- Python's `locale.windows_locale` dictionary (`none` = `KeyError`). -/
  windowsLocaleTable : Nat → Option PyStr
  /-- The call `ctypes.windll.kernel32.GetUserDefaultUILanguage()`. -/
  userDefaultUILang : Nat
  /-- The buffer contents written by `kernel32.LCIDToLocaleName`
  (`[]` when the call is unavailable or writes nothing). -/
  lcidToLocaleNameBuf : Nat → PyStr
  /-- Whether `gettext.translation("nvda", localedir="locale", languages=[n])`
  succeeds for a given locale name `n`. -/
  transLoads : PyStr → Bool
  /-- Whether `locale.setlocale(locale.LC_ALL, n)` succeeds for a string `n`. -/
  setlocaleOk : PyStr → Bool
  /-- Whether `locale.getlocale()` succeeds while the process formatting
  locale is the given string. -/
  getlocaleOk : PyStr → Bool
  /-- The call `kernel32.GetLocaleInfoW(lcid, field, buf, 1024)`: the returned count
  and the buffer contents written (count `0` writes nothing: `[]`). -/
  getLocaleInfoW : Nat → Nat → Nat × PyStr
  /-- The `pgettext(context, message)` translation lookup. -/
  pgettext : PyStr → PyStr → PyStr
  /-- The locale directories containing an installed `nvda.mo` catalog
  (source lines 100-103). -/
  installedLocales : List PyStr
  /-- The translated display pattern `_("\x7bdesc\x7d, \x7blc\x7d")`, line 114. -/
  fullDescPattern : PyStr
  /-- The `locale.strxfrm` collation key used by the presentational sort. -/
  strxfrm : PyStr → PyStr
  /-- The translated label `_("User default")`, line 123. -/
  userDefaultLabel : PyStr

/-- The module-level mutable state of `languageHandler` plus the pieces of
interpreter state the module manipulates. -/
structure LHState : Type where
  /-- The global `curLang`, source line 30. -/
  curLang : PyStr
  /-- The string last successfully passed to `locale.setlocale`
  (the process formatting locale). -/
  pyLocale : PyStr
  /-- The Windows locale of the core thread (`SetThreadLocale`). -/
  threadLocale : Nat
  /-- The installed translation catalog. -/
  catalog : Catalog
deriving DecidableEq, Repr

/-- The state at module load: `curLang = "en"` (line 30), the interpreter's
startup `"C"` formatting locale, no catalog installed. -/
def initialState : LHState :=
  { curLang := "en".toList, pyLocale := "C".toList, threadLocale := 0,
    catalog := Catalog.uninstalled }

/-- Source lines 32-48, `localeNameToWindowsLCID`: replace underscores by
dashes, ask the OS, and turn the `LOCALE_CUSTOM_UNSPECIFIED` sentinel into
`LCID_NONE`. -/
def localeNameToWindowsLCID (env : Env) (localeName : PyStr) : Nat :=
  let localeName1 := pyReplace '_' '-' localeName
  let LCID := env.osLocaleNameToLCID localeName1
  if LCID = LOCALE_CUSTOM_UNSPECIFIED then LCID_NONE else LCID

/-- Source lines 289-407: the static dictionary
`windowsPrimaryLCIDsToLocaleNames`. -/
def windowsPrimaryLCIDsToLocaleNames : List (Nat × PyStr) :=
  [(1, "ar".toList), (2, "bg".toList), (3, "ca".toList), (4, "zh".toList),
   (5, "cs".toList), (6, "da".toList), (7, "de".toList), (8, "el".toList),
   (9, "en".toList), (10, "es".toList), (11, "fi".toList), (12, "fr".toList),
   (13, "he".toList), (14, "hu".toList), (15, "is".toList), (16, "it".toList),
   (17, "ja".toList), (18, "ko".toList), (19, "nl".toList), (20, "nb".toList),
   (21, "pl".toList), (22, "pt".toList), (23, "rm".toList), (24, "ro".toList),
   (25, "ru".toList), (26, "sr".toList), (27, "sk".toList), (28, "sq".toList),
   (29, "sv".toList), (30, "th".toList), (31, "tr".toList), (32, "ur".toList),
   (33, "id".toList), (34, "uk".toList), (35, "be".toList), (36, "sl".toList),
   (37, "et".toList), (38, "lv".toList), (39, "lt".toList), (40, "tg".toList),
   (41, "fa".toList), (42, "vi".toList), (43, "hy".toList), (44, "az".toList),
   (45, "eu".toList), (46, "wen".toList), (47, "mk".toList), (50, "tn".toList),
   (52, "xh".toList), (53, "zu".toList), (54, "af".toList), (55, "ka".toList),
   (56, "fo".toList), (57, "hi".toList), (58, "mt".toList), (59, "sms".toList),
   (60, "ga".toList), (62, "ms".toList), (63, "kk".toList), (64, "ky".toList),
   (65, "sw".toList), (66, "tk".toList), (67, "uz".toList), (68, "tt".toList),
   (69, "bn".toList), (70, "pa".toList), (71, "gu".toList), (72, "or".toList),
   (73, "ta".toList), (74, "te".toList), (75, "kn".toList), (76, "ml".toList),
   (77, "as".toList), (78, "mr".toList), (79, "sa".toList), (80, "mn".toList),
   (81, "bo".toList), (82, "cy".toList), (83, "kh".toList), (84, "lo".toList),
   (86, "gl".toList), (87, "kok".toList), (90, "syr".toList), (91, "si".toList),
   (93, "iu".toList), (94, "am".toList), (95, "tmz".toList), (97, "ne".toList),
   (98, "fy".toList), (99, "ps".toList), (100, "fil".toList), (101, "div".toList),
   (104, "ha".toList), (106, "yo".toList), (107, "quz".toList), (108, "ns".toList),
   (109, "ba".toList), (110, "lb".toList), (111, "kl".toList), (120, "ii".toList),
   (122, "arn".toList), (124, "moh".toList), (126, "br".toList), (128, "ug".toList),
   (129, "mi".toList), (130, "oc".toList), (131, "co".toList), (132, "gsw".toList),
   (133, "sah".toList), (134, "qut".toList), (135, "rw".toList), (136, "wo".toList),
   (140, "gbz".toList), (1170, "ckb".toList), (1109, "my".toList),
   (1143, "so".toList), (9242, "sr".toList)]

/-- Python dictionary lookup `windowsPrimaryLCIDsToLocaleNames[lcid]`
(`none` = `KeyError`). -/
def legacyLCIDLookup (lcid : Nat) : Option PyStr :=
  (windowsPrimaryLCIDsToLocaleNames.find? (fun p => p.1 = lcid)).map (fun p => p.2)

instance : DecidableEq (Except PyError (Option PyStr)) :=
  fun a b =>
    match a, b with
    | Except.ok x, Except.ok y =>
      if h : x = y then isTrue (by rw [h]) else isFalse (by simp [h])
    | Except.error x, Except.error y =>
      if h : x = y then isTrue (by rw [h]) else isFalse (by simp [h])
    | Except.ok _, Except.error _ => isFalse (by simp)
    | Except.error _, Except.ok _ => isFalse (by simp)

/-- Source lines 50-61, `windowsLCIDToLocaleName`: try Python's full
`locale.windows_locale` table, then the static primary-language table
(whose `KeyError` is not caught); normalize any non-empty hit, and
return `None` for an empty one. -/
def windowsLCIDToLocaleName (env : Env) (lcid : Nat) : Except PyError (Option PyStr) :=
  match env.windowsLocaleTable lcid with
  | some lang => Except.ok (if lang ≠ [] then normalizeLanguage lang else none)
  | none =>
    match legacyLCIDLookup lcid with
    | some lang => Except.ok (if lang ≠ [] then normalizeLanguage lang else none)
    | none => Except.error PyError.keyError

/-- Source lines 127-150, `getWindowsLanguage`: the user's configured
Windows UI language, via `locale.windows_locale` or the
`LCIDToLocaleName` buffer (normalized, which can yield `None`); `"en"`
when the buffer is empty. -/
def getWindowsLanguage (env : Env) : Option PyStr :=
  let windowsLCID := env.userDefaultUILang
  match env.windowsLocaleTable windowsLCID with
  | some localeName => some localeName
  | none =>
    let buf := env.lcidToLocaleNameBuf windowsLCID
    if buf ≠ [] then normalizeLanguage buf else some "en".toList

/-- Source lines 79-90: the hard-coded description table for languages
whose metadata lookup fails on some OS configurations. -/
def languageDescriptionFallbacks (env : Env) : List (PyStr × PyStr) :=
  [("an".toList, env.pgettext "languageName".toList "Aragonese".toList),
   ("ckb".toList, env.pgettext "languageName".toList "Central Kurdish".toList),
   ("kmr".toList, env.pgettext "languageName".toList "Northern Kurdish".toList),
   ("my".toList, env.pgettext "languageName".toList "Burmese".toList),
   ("so".toList, env.pgettext "languageName".toList "Somali".toList)]

/-- Source lines 63-91, `getLanguageDescription`: resolve the code to an
LCID; query `LOCALE_SLANGDISPLAYNAME` for dialect-free codes, falling
back to `LOCALE_SLANGUAGE` when that query returns 0; when the buffer
ends up empty (or the LCID is `LCID_NONE`), consult the hard-coded
table.  A `GetLocaleInfoW` call that returns count 0 writes nothing, so
the environment pairs count 0 with an empty buffer. -/
def getLanguageDescription (env : Env) (language : PyStr) : Option PyStr :=
  let LCID := localeNameToWindowsLCID env language
  let desc : Option PyStr :=
    if LCID ≠ LCID_NONE then
      let a := if ¬ ('_' ∈ language)
        then env.getLocaleInfoW LCID LOCALE_SLANGDISPLAYNAME
        else (0, [])
      let buf := if a.1 = 0 then (env.getLocaleInfoW LCID LOCALE_SLANGUAGE).2 else a.2
      if buf ≠ [] then some buf else none
    else none
  match desc with
  | some d => some d
  | none =>
    ((languageDescriptionFallbacks env).find? (fun p => p.1 = language)).map
      (fun p => p.2)

/-- Source lines 100-107 of `getAvailableLanguages`: the catalog
directories, with `"en"` appended and the list re-sorted when no English
catalog is installed. -/
def availLocales (env : Env) : List PyStr :=
  if "en".toList ∈ env.installedLocales then env.installedLocales
  else pySort pyStrLe (env.installedLocales ++ ["en".toList])

/-- Source line 109 of `getAvailableLanguages`: each code paired with
its description. -/
def availLangPairs (env : Env) : List (PyStr × Option PyStr) :=
  (availLocales env).map (fun lc => (lc, getLanguageDescription env lc))

/-- Source lines 114-117 of `getAvailableLanguages`: the presentational
sort by collation key of the description (code when absent), applied
only when requested and when the translated pattern places the
description first. -/
def availSorted (env : Env) (presentational : Bool) : List (PyStr × Option PyStr) :=
  let isDescFirst :=
    pyFind env.fullDescPattern "{desc}".toList < pyFind env.fullDescPattern "{lc}".toList
  if presentational && isDescFirst then
    pySort (fun p q => pyStrLe (env.strxfrm (p.2.getD p.1)) (env.strxfrm (q.2.getD q.1)))
      (availLangPairs env)
  else availLangPairs env

/-- Source lines 93-125, `getAvailableLanguages`: enumerate the installed
catalogs, force `"en"` into the list, pair each code with its
description, optionally sort presentationally, format the labels, and
prepend the synthetic `("Windows", _("User default"))` entry. -/
def getAvailableLanguages (env : Env) (presentational : Bool) : List (PyStr × PyStr) :=
  ("Windows".toList, env.userDefaultLabel) ::
    (availSorted env presentational).map (fun p =>
      (p.1, match p.2 with
            | some desc => pyFormat env.fullDescPattern desc p.1
            | none => p.1))

/-- One attempt of the formatting-locale cascade:
`locale.setlocale(locale.LC_ALL, name)` followed by `locale.getlocale()`
(both exceptions are caught at the call sites).  Returns the new state
and whether the attempt succeeded; a successful `setlocale` records the
new formatting locale even when the following `getlocale` fails. -/
def trySet (env : Env) (name : PyStr) (st : LHState) : LHState × Bool :=
  if env.setlocaleOk name then
    ({ st with pyLocale := name }, env.getlocaleOk name)
  else (st, false)

/-- Source lines 252-264, the final block of `setLocale`: when
`locale.getlocale()` fails on the formatting locale left behind, either
reset to the system default — the unguarded
`locale.setlocale(locale.LC_ALL, "")` at line 259, whose `locale.Error`
escapes — or recurse on `curLang` (the recursion abstracted as
`recurse`). -/
def setLocaleFinale (env : Env) (recurse : PyStr → LHState → LHState × Option PyError)
    (localeName : PyStr) (st3 : LHState) : LHState × Option PyError :=
  if env.getlocaleOk st3.pyLocale then (st3, none)
  else if localeName = st3.curLang then
    if env.setlocaleOk [] then ({ st3 with pyLocale := [] }, none)
    else (st3, some PyError.localeError)
  else recurse st3.curLang st3

/-- Source lines 239-250 of `setLocale`: when the (possibly
dash-replaced) name contains an underscore, retry with only its language
segment. -/
def setLocaleStep3 (env : Env) (recurse : PyStr → LHState → LHState × Option PyError)
    (localeName name2 : PyStr) (st2 : LHState) : LHState × Option PyError :=
  let a3 := if '_' ∈ name2 then trySet env (pySplit '_' name2).1 st2 else (st2, false)
  if a3.2 then (a3.1, none) else setLocaleFinale env recurse localeName a3.1

/-- Source lines 226-237 of `setLocale`: when the requested name
contains a dash, retry with dashes replaced by underscores. -/
def setLocaleStep2 (env : Env) (recurse : PyStr → LHState → LHState × Option PyError)
    (localeName : PyStr) (st1 : LHState) : LHState × Option PyError :=
  let a2 := if '-' ∈ localeName then trySet env (pyReplace '-' '_' localeName) st1
            else (st1, false)
  let name2 := if '-' ∈ localeName then pyReplace '-' '_' localeName else localeName
  if a2.2 then (a2.1, none) else setLocaleStep3 env recurse localeName name2 a2.1

/-- Source lines 186-264, the body of `setLocale`, with the recursive
call at line 264 abstracted as `recurse`: try the exact name, then the
dash-to-underscore retry, then the bare language segment, then the final
fallback block. -/
def setLocaleBody (env : Env) (recurse : PyStr → LHState → LHState × Option PyError)
    (localeName : PyStr) (st : LHState) : LHState × Option PyError :=
  let a1 := trySet env localeName st
  if a1.2 then (a1.1, none) else setLocaleStep2 env recurse localeName a1.1

/-- The function `setLocale` with explicit recursion fuel (the recursion passes
`curLang`, which `setLocale` never changes, so fuel 2 always suffices;
exhausted fuel returns the state unchanged and is proved unreachable
below). -/
def setLocaleF (env : Env) : Nat → PyStr → LHState → LHState × Option PyError
  | 0, _, st => (st, none)
  | fuel + 1, localeName, st => setLocaleBody env (setLocaleF env fuel) localeName st

/-- Source lines 186-264, `setLocale`. -/
def setLocale (env : Env) (localeName : PyStr) (st : LHState) : LHState × Option PyError :=
  setLocaleF env 2 localeName st

/-- Source lines 162-165 of `setLanguage`: the locale name the rest of
the function works with — the Windows UI language when the `"Windows"`
sentinel was requested (`none` when its normalization filters it out),
otherwise the requested string itself. -/
def resolvedLocaleName (env : Env) (lang : PyStr) : Option PyStr :=
  if lang = "Windows".toList then getWindowsLanguage env else some lang

/-- Source lines 153-183, `setLanguage`: resolve the request, set the
thread locale for literal requests (`IOError` caught), load the catalog
for the resolved name — on failure install the fallback catalog and set
`curLang` to `"en"`, on success install it and set `curLang` to the
resolved name — then delegate to `setLocale(curLang)`.  When the
`"Windows"` resolution produced `None`, `gettext.translation` raises a
non-`IOError` exception that escapes before `curLang` is assigned. -/
def setLanguage (env : Env) (lang : PyStr) (st : LHState) : LHState × Option PyError :=
  let st :=
    if lang = "Windows".toList then st
    else
      let LCID := localeNameToWindowsLCID env lang
      if env.threadLocaleRaises LCID then st else { st with threadLocale := LCID }
  match resolvedLocaleName env lang with
  | none => (st, some PyError.typeError)
  | some localeName =>
    let st :=
      if env.transLoads localeName then
        { st with curLang := localeName, catalog := Catalog.ofLang localeName }
      else
        { st with curLang := "en".toList, catalog := Catalog.fallback }
    setLocale env st.curLang st

/-- Source lines 267-268, `getLanguage`. -/
def getLanguage (st : LHState) : PyStr := st.curLang

/-- A sequence of `setLanguage` calls, threading the module state. -/
def runSeq (env : Env) (langs : List PyStr) (st : LHState) : LHState :=
  langs.foldl (fun s l => (setLanguage env l s).1) st

/-- The canonical-shape invariant claimed for `curLang`: no dash, and at
most one underscore-separated dialect segment. -/
def canonicalShape (s : PyStr) : Prop := '-' ∉ s ∧ s.count '_' ≤ 1

instance (s : PyStr) : Decidable (canonicalShape s) := by
  unfold canonicalShape
  exact instDecidableAnd

/-- A baseline collaborator environment for concrete runs: the OS knows
no locale names, every `locale` and `gettext` operation succeeds, no
catalogs are installed, and translation lookups are identities. -/
def baseEnv : Env :=
  { osLocaleNameToLCID := fun _ => 0
    threadLocaleRaises := fun _ => false
    windowsLocaleTable := fun _ => none
    userDefaultUILang := 0
    lcidToLocaleNameBuf := fun _ => []
    transLoads := fun _ => true
    setlocaleOk := fun _ => true
    getlocaleOk := fun _ => true
    getLocaleInfoW := fun _ _ => (0, [])
    pgettext := fun _ m => m
    installedLocales := []
    fullDescPattern := "{desc}, {lc}".toList
    strxfrm := fun s => s
    userDefaultLabel := "User default".toList }

/-- Environment where the catalog load, every `setlocale` and every
`getlocale` fail: exercises the unguarded system-default reset. -/
def envAllLocaleOpsFail : Env :=
  { baseEnv with
    transLoads := fun _ => false
    setlocaleOk := fun _ => false
    getlocaleOk := fun _ => false }

/-- Environment where every `setlocale` fails but `getlocale` still
succeeds on the prior formatting locale. -/
def envSetFailsGetOk : Env :=
  { baseEnv with
    transLoads := fun _ => false
    setlocaleOk := fun _ => false }

/-- Environment where `setlocale` succeeds only on the empty
(system-default) locale string and `getlocale` always fails. -/
def envOnlyDefaultSettable : Env :=
  { baseEnv with
    transLoads := fun _ => false
    setlocaleOk := fun s => s.isEmpty
    getlocaleOk := fun _ => false }

/-- Environment with an installed catalog directory literally named
`Windows`. -/
def envWindowsDir : Env :=
  { baseEnv with installedLocales := ["Windows".toList] }

/-- Environment whose OS lookup answers every locale-name query with the
`LOCALE_CUSTOM_UNSPECIFIED` sentinel (the Windows 10 behaviour noted at
source line 43). -/
def envCustomSentinel : Env :=
  { baseEnv with osLocaleNameToLCID := fun _ => LOCALE_CUSTOM_UNSPECIFIED }

theorem caseTable_no_special :
    ∀ p ∈ caseTable, p.1 ≠ '-' ∧ p.1 ≠ '_' ∧ p.2 ≠ '-' ∧ p.2 ≠ '_' := by decide

theorem caseTable_disjoint :
    ∀ p ∈ caseTable, ∀ q ∈ caseTable, q.1 ≠ p.2 ∧ q.2 ≠ p.1 := by decide

theorem charLower_eq_of_find?_none (c : Char)
    (h : caseTable.find? (fun p => p.1 = c) = none) : charLower c = c := by
  unfold charLower
  rw [h]

theorem charLower_eq_of_find?_some (c : Char) (p : Char × Char)
    (h : caseTable.find? (fun q => q.1 = c) = some p) : charLower c = p.2 := by
  unfold charLower
  rw [h]

theorem charUpper_eq_of_find?_none (c : Char)
    (h : caseTable.find? (fun p => p.2 = c) = none) : charUpper c = c := by
  unfold charUpper
  rw [h]

theorem charUpper_eq_of_find?_some (c : Char) (p : Char × Char)
    (h : caseTable.find? (fun q => q.2 = c) = some p) : charUpper c = p.1 := by
  unfold charUpper
  rw [h]

theorem charLower_ne_dash (c : Char) (h : c ≠ '-') : charLower c ≠ '-' := by
  cases hf : caseTable.find? (fun p => p.1 = c) with
  | none => rw [charLower_eq_of_find?_none c hf]; exact h
  | some p =>
    rw [charLower_eq_of_find?_some c p hf]
    exact (caseTable_no_special p (List.mem_of_find?_eq_some hf)).2.2.1

theorem charLower_ne_underscore (c : Char) (h : c ≠ '_') : charLower c ≠ '_' := by
  cases hf : caseTable.find? (fun p => p.1 = c) with
  | none => rw [charLower_eq_of_find?_none c hf]; exact h
  | some p =>
    rw [charLower_eq_of_find?_some c p hf]
    exact (caseTable_no_special p (List.mem_of_find?_eq_some hf)).2.2.2

theorem charUpper_ne_dash (c : Char) (h : c ≠ '-') : charUpper c ≠ '-' := by
  cases hf : caseTable.find? (fun p => p.2 = c) with
  | none => rw [charUpper_eq_of_find?_none c hf]; exact h
  | some p =>
    rw [charUpper_eq_of_find?_some c p hf]
    exact (caseTable_no_special p (List.mem_of_find?_eq_some hf)).1

theorem charUpper_ne_underscore (c : Char) (h : c ≠ '_') : charUpper c ≠ '_' := by
  cases hf : caseTable.find? (fun p => p.2 = c) with
  | none => rw [charUpper_eq_of_find?_none c hf]; exact h
  | some p =>
    rw [charUpper_eq_of_find?_some c p hf]
    exact (caseTable_no_special p (List.mem_of_find?_eq_some hf)).2.1

theorem charLower_idem (c : Char) : charLower (charLower c) = charLower c := by
  cases hf : caseTable.find? (fun p => p.1 = c) with
  | none =>
    rw [charLower_eq_of_find?_none c hf]
    exact charLower_eq_of_find?_none c hf
  | some p =>
    have hmem := List.mem_of_find?_eq_some hf
    rw [charLower_eq_of_find?_some c p hf]
    have hnone : caseTable.find? (fun q => q.1 = p.2) = none := by
      apply List.find?_eq_none.mpr
      intro q hq
      simpa using (caseTable_disjoint p hmem q hq).1
    exact charLower_eq_of_find?_none p.2 hnone

theorem charUpper_idem (c : Char) : charUpper (charUpper c) = charUpper c := by
  cases hf : caseTable.find? (fun p => p.2 = c) with
  | none =>
    rw [charUpper_eq_of_find?_none c hf]
    exact charUpper_eq_of_find?_none c hf
  | some p =>
    have hmem := List.mem_of_find?_eq_some hf
    rw [charUpper_eq_of_find?_some c p hf]
    have hnone : caseTable.find? (fun q => q.2 = p.1) = none := by
      apply List.find?_eq_none.mpr
      intro q hq
      simpa using (caseTable_disjoint p hmem q hq).2
    exact charUpper_eq_of_find?_none p.1 hnone

theorem pyLower_idem (s : PyStr) : pyLower (pyLower s) = pyLower s := by
  simp only [pyLower, List.map_map]
  exact List.map_congr_left (fun c _ => charLower_idem c)

theorem pyUpper_idem (s : PyStr) : pyUpper (pyUpper s) = pyUpper s := by
  simp only [pyUpper, List.map_map]
  exact List.map_congr_left (fun c _ => charUpper_idem c)

theorem pyLower_not_mem_dash (s : PyStr) (h : '-' ∉ s) : '-' ∉ pyLower s := by
  intro hm
  rcases List.mem_map.mp hm with ⟨d, hd, hld⟩
  exact charLower_ne_dash d (fun hdd => h (hdd ▸ hd)) hld

theorem pyLower_not_mem_underscore (s : PyStr) (h : '_' ∉ s) : '_' ∉ pyLower s := by
  intro hm
  rcases List.mem_map.mp hm with ⟨d, hd, hld⟩
  exact charLower_ne_underscore d (fun hdd => h (hdd ▸ hd)) hld

theorem pyUpper_not_mem_dash (s : PyStr) (h : '-' ∉ s) : '-' ∉ pyUpper s := by
  intro hm
  rcases List.mem_map.mp hm with ⟨d, hd, hld⟩
  exact charUpper_ne_dash d (fun hdd => h (hdd ▸ hd)) hld

theorem pyUpper_not_mem_underscore (s : PyStr) (h : '_' ∉ s) : '_' ∉ pyUpper s := by
  intro hm
  rcases List.mem_map.mp hm with ⟨d, hd, hld⟩
  exact charUpper_ne_underscore d (fun hdd => h (hdd ▸ hd)) hld

theorem pyReplace_not_mem (a b : Char) (s : PyStr) (hab : a ≠ b) :
    a ∉ pyReplace a b s := by
  intro hm
  rcases List.mem_map.mp hm with ⟨d, _, hd⟩
  by_cases h : d = a
  · simp [h] at hd
    exact hab hd.symm
  · simp [h] at hd

theorem pyReplace_id (a b : Char) (s : PyStr) (h : a ∉ s) : pyReplace a b s = s := by
  unfold pyReplace
  conv_rhs => rw [show s = s.map id from (List.map_id s).symm]
  apply List.map_congr_left
  intro c hc
  have : c ≠ a := fun hca => h (hca ▸ hc)
  simp [this]

theorem pySplit_not_mem_fst (sep : Char) (s : PyStr) : sep ∉ (pySplit sep s).1 := by
  induction s with
  | nil => simp [pySplit]
  | cons c cs ih =>
    by_cases h : c = sep
    · simp [pySplit, h]
    · simp only [pySplit, if_neg h]
      intro hm
      rcases List.mem_cons.mp hm with h1 | h2
      · exact h h1.symm
      · exact ih h2

theorem pySplit_not_mem_snd (sep : Char) (s : PyStr) :
    ∀ q ∈ (pySplit sep s).2, sep ∉ q := by
  induction s with
  | nil => simp [pySplit]
  | cons c cs ih =>
    by_cases h : c = sep
    · simp only [pySplit, if_pos h]
      intro q hq
      rcases List.mem_cons.mp hq with h1 | h2
      · exact h1 ▸ pySplit_not_mem_fst sep cs
      · exact ih q h2
    · simp only [pySplit, if_neg h]
      exact ih

theorem pySplit_mem_fst (sep : Char) (s : PyStr) :
    ∀ c ∈ (pySplit sep s).1, c ∈ s := by
  induction s with
  | nil => simp [pySplit]
  | cons c cs ih =>
    by_cases h : c = sep
    · simp [pySplit, h]
    · simp only [pySplit, if_neg h]
      intro d hd
      rcases List.mem_cons.mp hd with h1 | h2
      · exact h1 ▸ List.mem_cons_self c cs
      · exact List.mem_cons_of_mem c (ih d h2)

theorem pySplit_mem_snd (sep : Char) (s : PyStr) :
    ∀ q ∈ (pySplit sep s).2, ∀ c ∈ q, c ∈ s := by
  induction s with
  | nil => simp [pySplit]
  | cons c cs ih =>
    by_cases h : c = sep
    · simp only [pySplit, if_pos h]
      intro q hq d hd
      rcases List.mem_cons.mp hq with h1 | h2
      · exact List.mem_cons_of_mem c (pySplit_mem_fst sep cs d (h1 ▸ hd))
      · exact List.mem_cons_of_mem c (ih q h2 d hd)
    · simp only [pySplit, if_neg h]
      intro q hq d hd
      exact List.mem_cons_of_mem c (ih q hq d hd)

theorem pySplit_snd_length (sep : Char) (s : PyStr) :
    (pySplit sep s).2.length = s.count sep := by
  induction s with
  | nil => simp [pySplit]
  | cons c cs ih =>
    by_cases h : c = sep
    · simp [pySplit, h, List.count_cons, ih]
    · simp [pySplit, h, List.count_cons, ih]

theorem pySplit_of_not_mem (sep : Char) (s : PyStr) (h : sep ∉ s) :
    pySplit sep s = (s, []) := by
  induction s with
  | nil => simp [pySplit]
  | cons c cs ih =>
    have hc : c ≠ sep := fun hc => h (hc ▸ List.mem_cons_self c cs)
    have hcs : sep ∉ cs := fun hm => h (List.mem_cons_of_mem c hm)
    simp [pySplit, hc, ih hcs]

theorem pySplit_append_sep (sep : Char) (p t : PyStr) (h : sep ∉ p) :
    pySplit sep (p ++ sep :: t) = (p, (pySplit sep t).1 :: (pySplit sep t).2) := by
  induction p with
  | nil => simp [pySplit]
  | cons c cs ih =>
    have hc : c ≠ sep := fun hc => h (hc ▸ List.mem_cons_self c cs)
    have hcs : sep ∉ cs := fun hm => h (List.mem_cons_of_mem c hm)
    simp [pySplit, hc, ih hcs]

theorem pySplit_pyJoin (sep : Char) (ps : List PyStr) :
    ∀ p, sep ∉ p → (∀ q ∈ ps, sep ∉ q) →
    pySplit sep (pyJoin sep (p :: ps)) = (p, ps) := by
  induction ps with
  | nil =>
    intro p hp _
    simpa [pyJoin] using pySplit_of_not_mem sep p hp
  | cons q qs ih =>
    intro p hp hqs
    have h1 : pyJoin sep (p :: q :: qs) = p ++ sep :: pyJoin sep (q :: qs) := rfl
    rw [h1, pySplit_append_sep sep p _ hp]
    have h2 := ih q (hqs q (List.mem_cons_self q qs))
      (fun u hu => hqs u (List.mem_cons_of_mem q hu))
    rw [h2]

theorem pyJoin_mem (sep : Char) (L : List PyStr) (c : Char) (h : c ∈ pyJoin sep L) :
    c = sep ∨ ∃ p ∈ L, c ∈ p := by
  induction L with
  | nil => simp [pyJoin] at h
  | cons p rest ih =>
    cases rest with
    | nil =>
      simp only [pyJoin] at h
      exact Or.inr ⟨p, List.mem_cons_self p [], h⟩
    | cons q qs =>
      simp only [pyJoin] at h
      rcases List.mem_append.mp h with h1 | h2
      · exact Or.inr ⟨p, List.mem_cons_self p (q :: qs), h1⟩
      · rcases List.mem_cons.mp h2 with h3 | h4
        · exact Or.inl h3
        · rcases ih h4 with h5 | ⟨u, hu, hcu⟩
          · exact Or.inl h5
          · exact Or.inr ⟨u, List.mem_cons_of_mem p hu, hcu⟩

theorem pyJoin_count (sep : Char) (ps : List PyStr) :
    ∀ p, sep ∉ p → (∀ q ∈ ps, sep ∉ q) →
    (pyJoin sep (p :: ps)).count sep = ps.length := by
  induction ps with
  | nil =>
    intro p hp _
    simpa [pyJoin] using List.count_eq_zero.mpr hp
  | cons q qs ih =>
    intro p hp hqs
    have h1 : pyJoin sep (p :: q :: qs) = p ++ sep :: pyJoin sep (q :: qs) := rfl
    have h2 := ih q (hqs q (List.mem_cons_self q qs))
      (fun u hu => hqs u (List.mem_cons_of_mem q hu))
    simp [h1, List.count_append, List.count_cons, h2, List.count_eq_zero.mpr hp]

/-- Structural description of a successful `normalizeLanguage` run in
terms of the split of the dash-replaced input. -/
theorem normalizeLanguage_spec (x r : PyStr) (h : normalizeLanguage x = some r) :
    pyLower (pySplit '_' (pyReplace '-' '_' x)).1 ≠ "x".toList ∧
    (((pySplit '_' (pyReplace '-' '_' x)).2 = [] ∧
        r = pyLower (pySplit '_' (pyReplace '-' '_' x)).1) ∨
      (∃ l1 rest2, (pySplit '_' (pyReplace '-' '_' x)).2 = l1 :: rest2 ∧
        r = pyJoin '_'
          (pyLower (pySplit '_' (pyReplace '-' '_' x)).1 :: pyUpper l1 :: rest2))) := by
  simp only [normalizeLanguage] at h
  by_cases hx : pyLower (pySplit '_' (pyReplace '-' '_' x)).1 = "x".toList
  · rw [if_pos hx] at h
    exact absurd h (by simp)
  · refine ⟨hx, ?_⟩
    rw [if_neg hx] at h
    cases hrest : (pySplit '_' (pyReplace '-' '_' x)).2 with
    | nil =>
      rw [hrest] at h
      simp only [Option.some.injEq] at h
      left
      exact ⟨rfl, by simpa [pyJoin] using h.symm⟩
    | cons l1 rest2 =>
      rw [hrest] at h
      simp only [Option.some.injEq] at h
      right
      exact ⟨l1, rest2, rfl, h.symm⟩

/-- The output of a successful `normalizeLanguage` never contains a dash. -/
theorem normalizeLanguage_no_dash (x r : PyStr) (h : normalizeLanguage x = some r) :
    '-' ∉ r := by
  have hy : '-' ∉ pyReplace '-' '_' x := pyReplace_not_mem '-' '_' x (by decide)
  have hl0 : '-' ∉ (pySplit '_' (pyReplace '-' '_' x)).1 :=
    fun hm => hy (pySplit_mem_fst '_' _ '-' hm)
  rcases normalizeLanguage_spec x r h with ⟨-, hcase⟩
  rcases hcase with ⟨-, hr⟩ | ⟨l1, rest2, hrest, hr⟩
  · exact hr ▸ pyLower_not_mem_dash _ hl0
  · subst hr
    intro hm
    rcases pyJoin_mem '_' _ '-' hm with h1 | ⟨p, hp, hcp⟩
    · exact absurd h1 (by decide)
    · rcases List.mem_cons.mp hp with h2 | hp2
      · exact pyLower_not_mem_dash _ hl0 (h2 ▸ hcp)
      · rcases List.mem_cons.mp hp2 with h3 | hp3
        · have hl1 : '-' ∉ l1 := fun hm1 =>
            hy (pySplit_mem_snd '_' _ l1 (hrest ▸ List.mem_cons_self l1 rest2) '-' hm1)
          exact pyUpper_not_mem_dash _ hl1 (h3 ▸ hcp)
        · have hp4 : p ∈ (pySplit '_' (pyReplace '-' '_' x)).2 :=
            hrest ▸ List.mem_cons_of_mem l1 hp3
          exact hy (pySplit_mem_snd '_' _ p hp4 '-' hcp)

/-- A successful `normalizeLanguage` preserves the number of separators:
the output has exactly as many underscores as the dash-replaced input. -/
theorem normalizeLanguage_count (x r : PyStr) (h : normalizeLanguage x = some r) :
    r.count '_' = (pyReplace '-' '_' x).count '_' := by
  have hl0 : '_' ∉ (pySplit '_' (pyReplace '-' '_' x)).1 := pySplit_not_mem_fst _ _
  rcases normalizeLanguage_spec x r h with ⟨-, hcase⟩
  rcases hcase with ⟨hrest, hr⟩ | ⟨l1, rest2, hrest, hr⟩
  · rw [hr, ← pySplit_snd_length '_' (pyReplace '-' '_' x), hrest]
    simpa using List.count_eq_zero.mpr (pyLower_not_mem_underscore _ hl0)
  · have hl1 : '_' ∉ l1 :=
      pySplit_not_mem_snd '_' _ l1 (hrest ▸ List.mem_cons_self l1 rest2)
    have hrest2 : ∀ q ∈ rest2, '_' ∉ q := fun q hq =>
      pySplit_not_mem_snd '_' _ q (hrest ▸ List.mem_cons_of_mem l1 hq)
    have hpieces : ∀ q ∈ pyUpper l1 :: rest2, '_' ∉ q := by
      intro q hq
      rcases List.mem_cons.mp hq with h1 | h2
      · exact h1 ▸ pyUpper_not_mem_underscore _ hl1
      · exact hrest2 q h2
    rw [hr, pyJoin_count '_' _ _ (pyLower_not_mem_underscore _ hl0) hpieces,
      ← pySplit_snd_length '_' (pyReplace '-' '_' x), hrest]
    simp

/-- Idempotence: `normalizeLanguage` fixes its successful outputs. -/
theorem normalizeLanguage_idem (x r : PyStr) (h : normalizeLanguage x = some r) :
    normalizeLanguage r = some r := by
  have hnd : '-' ∉ r := normalizeLanguage_no_dash x r h
  have hrep : pyReplace '-' '_' r = r := pyReplace_id '-' '_' r hnd
  have hl0 : '_' ∉ (pySplit '_' (pyReplace '-' '_' x)).1 := pySplit_not_mem_fst _ _
  rcases normalizeLanguage_spec x r h with ⟨hx, hcase⟩
  rcases hcase with ⟨hrest, hr⟩ | ⟨l1, rest2, hrest, hr⟩
  · have hru : '_' ∉ r := hr ▸ pyLower_not_mem_underscore _ hl0
    have hsplit : pySplit '_' r = (r, []) := pySplit_of_not_mem _ _ hru
    have hlr : pyLower r = r := by rw [hr]; exact pyLower_idem _
    have hcond : pyLower r ≠ "x".toList := by
      rw [hlr, hr]
      exact hx
    simp only [normalizeLanguage, hrep, hsplit]
    rw [if_neg hcond]
    simp [pyJoin, hlr]
  · have hl1 : '_' ∉ l1 :=
      pySplit_not_mem_snd '_' _ l1 (hrest ▸ List.mem_cons_self l1 rest2)
    have hrest2 : ∀ q ∈ rest2, '_' ∉ q := fun q hq =>
      pySplit_not_mem_snd '_' _ q (hrest ▸ List.mem_cons_of_mem l1 hq)
    have hpieces : ∀ q ∈ pyUpper l1 :: rest2, '_' ∉ q := by
      intro q hq
      rcases List.mem_cons.mp hq with h1 | h2
      · exact h1 ▸ pyUpper_not_mem_underscore _ hl1
      · exact hrest2 q h2
    have hsplit : pySplit '_' r
        = (pyLower (pySplit '_' (pyReplace '-' '_' x)).1, pyUpper l1 :: rest2) := by
      rw [hr]
      exact pySplit_pyJoin '_' (pyUpper l1 :: rest2) _
        (pyLower_not_mem_underscore _ hl0) hpieces
    have hcond : pyLower (pyLower (pySplit '_' (pyReplace '-' '_' x)).1) ≠ "x".toList := by
      rw [pyLower_idem]
      exact hx
    simp only [normalizeLanguage, hrep, hsplit]
    rw [if_neg hcond]
    simp [pyLower_idem, pyUpper_idem, hr]

theorem trySet_curLang (env : Env) (name : PyStr) (st : LHState) :
    (trySet env name st).1.curLang = st.curLang := by
  unfold trySet
  split <;> rfl

theorem trySet_catalog (env : Env) (name : PyStr) (st : LHState) :
    (trySet env name st).1.catalog = st.catalog := by
  unfold trySet
  split <;> rfl

theorem setLocaleFinale_curLang (env : Env)
    (recurse : PyStr → LHState → LHState × Option PyError)
    (hrec1 : ∀ m s, (recurse m s).1.curLang = s.curLang)
    (hrec2 : ∀ m s, (recurse m s).1.catalog = s.catalog)
    (name : PyStr) (st : LHState) :
    (setLocaleFinale env recurse name st).1.curLang = st.curLang ∧
      (setLocaleFinale env recurse name st).1.catalog = st.catalog := by
  unfold setLocaleFinale
  split_ifs <;> simp [hrec1, hrec2]

theorem setLocaleStep3_curLang (env : Env)
    (recurse : PyStr → LHState → LHState × Option PyError)
    (hrec1 : ∀ m s, (recurse m s).1.curLang = s.curLang)
    (hrec2 : ∀ m s, (recurse m s).1.catalog = s.catalog)
    (name name2 : PyStr) (st : LHState) :
    (setLocaleStep3 env recurse name name2 st).1.curLang = st.curLang ∧
      (setLocaleStep3 env recurse name name2 st).1.catalog = st.catalog := by
  unfold setLocaleStep3
  by_cases hu : '_' ∈ name2
  · simp only [if_pos hu]
    by_cases h3 : (trySet env (pySplit '_' name2).1 st).2 = true
    · simp [h3, trySet_curLang, trySet_catalog]
    · simp only [h3, if_false, Bool.false_eq_true]
      have := setLocaleFinale_curLang env recurse hrec1 hrec2 name
        (trySet env (pySplit '_' name2).1 st).1
      simpa [trySet_curLang, trySet_catalog] using this
  · simp only [if_neg hu]
    simpa using setLocaleFinale_curLang env recurse hrec1 hrec2 name st

theorem setLocaleStep2_curLang (env : Env)
    (recurse : PyStr → LHState → LHState × Option PyError)
    (hrec1 : ∀ m s, (recurse m s).1.curLang = s.curLang)
    (hrec2 : ∀ m s, (recurse m s).1.catalog = s.catalog)
    (name : PyStr) (st : LHState) :
    (setLocaleStep2 env recurse name st).1.curLang = st.curLang ∧
      (setLocaleStep2 env recurse name st).1.catalog = st.catalog := by
  unfold setLocaleStep2
  by_cases hd : '-' ∈ name
  · simp only [if_pos hd]
    by_cases h2 : (trySet env (pyReplace '-' '_' name) st).2 = true
    · simp [h2, trySet_curLang, trySet_catalog]
    · simp only [h2, if_false, Bool.false_eq_true]
      have := setLocaleStep3_curLang env recurse hrec1 hrec2 name
        (pyReplace '-' '_' name) (trySet env (pyReplace '-' '_' name) st).1
      simpa [trySet_curLang, trySet_catalog] using this
  · simp only [if_neg hd]
    simpa using setLocaleStep3_curLang env recurse hrec1 hrec2 name name st

theorem setLocaleBody_curLang (env : Env)
    (recurse : PyStr → LHState → LHState × Option PyError)
    (hrec1 : ∀ m s, (recurse m s).1.curLang = s.curLang)
    (hrec2 : ∀ m s, (recurse m s).1.catalog = s.catalog)
    (name : PyStr) (st : LHState) :
    (setLocaleBody env recurse name st).1.curLang = st.curLang ∧
      (setLocaleBody env recurse name st).1.catalog = st.catalog := by
  unfold setLocaleBody
  by_cases h1 : (trySet env name st).2 = true
  · simp [h1, trySet_curLang, trySet_catalog]
  · simp only [h1, if_false, Bool.false_eq_true]
    have := setLocaleStep2_curLang env recurse hrec1 hrec2 name (trySet env name st).1
    simpa [trySet_curLang, trySet_catalog] using this

theorem setLocaleF_curLang (env : Env) (fuel : Nat) (name : PyStr) (st : LHState) :
    (setLocaleF env fuel name st).1.curLang = st.curLang ∧
      (setLocaleF env fuel name st).1.catalog = st.catalog := by
  induction fuel generalizing name st with
  | zero => simp [setLocaleF]
  | succ n ih =>
    exact setLocaleBody_curLang env (setLocaleF env n)
      (fun m s => (ih m s).1) (fun m s => (ih m s).2) name st

theorem setLocaleFinale_noerror (env : Env)
    (recurse : PyStr → LHState → LHState × Option PyError)
    (hrec : ∀ m s, (recurse m s).2 = none) (hok : env.setlocaleOk [] = true)
    (name : PyStr) (st : LHState) :
    (setLocaleFinale env recurse name st).2 = none := by
  unfold setLocaleFinale
  split_ifs <;> simp_all

theorem setLocaleStep3_noerror (env : Env)
    (recurse : PyStr → LHState → LHState × Option PyError)
    (hrec : ∀ m s, (recurse m s).2 = none) (hok : env.setlocaleOk [] = true)
    (name name2 : PyStr) (st : LHState) :
    (setLocaleStep3 env recurse name name2 st).2 = none := by
  unfold setLocaleStep3
  by_cases hu : '_' ∈ name2
  · simp only [if_pos hu]
    by_cases h3 : (trySet env (pySplit '_' name2).1 st).2 = true
    · simp [h3]
    · simp only [h3, if_false, Bool.false_eq_true]
      exact setLocaleFinale_noerror env recurse hrec hok name _
  · simp only [if_neg hu]
    simpa using setLocaleFinale_noerror env recurse hrec hok name st

theorem setLocaleStep2_noerror (env : Env)
    (recurse : PyStr → LHState → LHState × Option PyError)
    (hrec : ∀ m s, (recurse m s).2 = none) (hok : env.setlocaleOk [] = true)
    (name : PyStr) (st : LHState) :
    (setLocaleStep2 env recurse name st).2 = none := by
  unfold setLocaleStep2
  by_cases hd : '-' ∈ name
  · simp only [if_pos hd]
    by_cases h2 : (trySet env (pyReplace '-' '_' name) st).2 = true
    · simp [h2]
    · simp only [h2, if_false, Bool.false_eq_true]
      exact setLocaleStep3_noerror env recurse hrec hok name _ _
  · simp only [if_neg hd]
    simpa using setLocaleStep3_noerror env recurse hrec hok name name st

theorem setLocaleBody_noerror (env : Env)
    (recurse : PyStr → LHState → LHState × Option PyError)
    (hrec : ∀ m s, (recurse m s).2 = none) (hok : env.setlocaleOk [] = true)
    (name : PyStr) (st : LHState) :
    (setLocaleBody env recurse name st).2 = none := by
  unfold setLocaleBody
  by_cases h1 : (trySet env name st).2 = true
  · simp [h1]
  · simp only [h1, if_false, Bool.false_eq_true]
    exact setLocaleStep2_noerror env recurse hrec hok name _

/-- When the system-default formatting locale can always be set, no
exception ever escapes the `setLocale` cascade. -/
theorem setLocaleF_noerror (env : Env) (hok : env.setlocaleOk [] = true)
    (fuel : Nat) (name : PyStr) (st : LHState) :
    (setLocaleF env fuel name st).2 = none := by
  induction fuel generalizing name st with
  | zero => simp [setLocaleF]
  | succ n ih => exact setLocaleBody_noerror env (setLocaleF env n) ih hok name st

theorem setLocaleFinale_norec (env : Env)
    (r1 r2 : PyStr → LHState → LHState × Option PyError)
    (name : PyStr) (st : LHState) (h : name = st.curLang) :
    setLocaleFinale env r1 name st = setLocaleFinale env r2 name st := by
  unfold setLocaleFinale
  split_ifs with h1 h2 <;> simp_all

theorem setLocaleStep3_norec (env : Env)
    (r1 r2 : PyStr → LHState → LHState × Option PyError)
    (name name2 : PyStr) (st : LHState) (h : name = st.curLang) :
    setLocaleStep3 env r1 name name2 st = setLocaleStep3 env r2 name name2 st := by
  unfold setLocaleStep3
  by_cases hu : '_' ∈ name2
  · simp only [if_pos hu]
    by_cases h3 : (trySet env (pySplit '_' name2).1 st).2 = true
    · simp [h3]
    · simp only [h3, if_false, Bool.false_eq_true]
      exact setLocaleFinale_norec env r1 r2 name _
        (h.trans (trySet_curLang env _ st).symm)
  · simp only [if_neg hu]
    exact setLocaleFinale_norec env r1 r2 name st h

theorem setLocaleStep2_norec (env : Env)
    (r1 r2 : PyStr → LHState → LHState × Option PyError)
    (name : PyStr) (st : LHState) (h : name = st.curLang) :
    setLocaleStep2 env r1 name st = setLocaleStep2 env r2 name st := by
  unfold setLocaleStep2
  by_cases hd : '-' ∈ name
  · simp only [if_pos hd]
    by_cases h2 : (trySet env (pyReplace '-' '_' name) st).2 = true
    · simp [h2]
    · simp only [h2, if_false, Bool.false_eq_true]
      exact setLocaleStep3_norec env r1 r2 name _ _
        (h.trans (trySet_curLang env _ st).symm)
  · simp only [if_neg hd]
    exact setLocaleStep3_norec env r1 r2 name name st h

/-- When `setLocale` is entered with the current language itself, the
recursive call at line 264 is unreachable: the body does not depend on
how recursion is interpreted. -/
theorem setLocaleBody_norec (env : Env)
    (r1 r2 : PyStr → LHState → LHState × Option PyError)
    (name : PyStr) (st : LHState) (h : name = st.curLang) :
    setLocaleBody env r1 name st = setLocaleBody env r2 name st := by
  unfold setLocaleBody
  by_cases h1 : (trySet env name st).2 = true
  · simp [h1]
  · simp only [h1, if_false, Bool.false_eq_true]
    exact setLocaleStep2_norec env r1 r2 name _
      (h.trans (trySet_curLang env _ st).symm)

theorem setLocaleFinale_congr (env : Env)
    (r1 r2 : PyStr → LHState → LHState × Option PyError)
    (hr : ∀ s, r1 s.curLang s = r2 s.curLang s)
    (name : PyStr) (st : LHState) :
    setLocaleFinale env r1 name st = setLocaleFinale env r2 name st := by
  unfold setLocaleFinale
  split_ifs <;> first | rfl | exact hr st

theorem setLocaleStep3_congr (env : Env)
    (r1 r2 : PyStr → LHState → LHState × Option PyError)
    (hr : ∀ s, r1 s.curLang s = r2 s.curLang s)
    (name name2 : PyStr) (st : LHState) :
    setLocaleStep3 env r1 name name2 st = setLocaleStep3 env r2 name name2 st := by
  unfold setLocaleStep3
  by_cases hu : '_' ∈ name2
  · simp only [if_pos hu]
    by_cases h3 : (trySet env (pySplit '_' name2).1 st).2 = true
    · simp [h3]
    · simp only [h3, if_false, Bool.false_eq_true]
      exact setLocaleFinale_congr env r1 r2 hr name _
  · simp only [if_neg hu]
    exact setLocaleFinale_congr env r1 r2 hr name st

theorem setLocaleStep2_congr (env : Env)
    (r1 r2 : PyStr → LHState → LHState × Option PyError)
    (hr : ∀ s, r1 s.curLang s = r2 s.curLang s)
    (name : PyStr) (st : LHState) :
    setLocaleStep2 env r1 name st = setLocaleStep2 env r2 name st := by
  unfold setLocaleStep2
  by_cases hd : '-' ∈ name
  · simp only [if_pos hd]
    by_cases h2 : (trySet env (pyReplace '-' '_' name) st).2 = true
    · simp [h2]
    · simp only [h2, if_false, Bool.false_eq_true]
      exact setLocaleStep3_congr env r1 r2 hr name _ _
  · simp only [if_neg hd]
    exact setLocaleStep3_congr env r1 r2 hr name name st

/-- The body only consults the recursion at `curLang` of the reached
state. -/
theorem setLocaleBody_congr (env : Env)
    (r1 r2 : PyStr → LHState → LHState × Option PyError)
    (hr : ∀ s, r1 s.curLang s = r2 s.curLang s)
    (name : PyStr) (st : LHState) :
    setLocaleBody env r1 name st = setLocaleBody env r2 name st := by
  unfold setLocaleBody
  by_cases h1 : (trySet env name st).2 = true
  · simp [h1]
  · simp only [h1, if_false, Bool.false_eq_true]
    exact setLocaleStep2_congr env r1 r2 hr name _

/-- A `setLocale` run entered with the current language needs no
recursion fuel beyond the first level. -/
theorem setLocaleF_one_eq (env : Env) (n : Nat) (name : PyStr) (st : LHState)
    (h : name = st.curLang) :
    setLocaleF env (n + 1) name st = setLocaleF env 1 name st :=
  setLocaleBody_norec env (setLocaleF env n) (setLocaleF env 0) name st h

/-- Fuel 2 fully evaluates `setLocale`: the recursion at line 264 always
terminates after at most one nested call. -/
theorem setLocaleF_fuel (env : Env) (n : Nat) (name : PyStr) (st : LHState) :
    setLocaleF env (n + 2) name st = setLocaleF env 2 name st := by
  show setLocaleBody env (setLocaleF env (n + 1)) name st
      = setLocaleBody env (setLocaleF env 1) name st
  exact setLocaleBody_congr env (setLocaleF env (n + 1)) (setLocaleF env 1)
    (fun s => setLocaleF_one_eq env n s.curLang s rfl) name st

/-- The catalog-and-state outcome of `setLanguage` when the request
resolves to an actual locale name: success stores the resolved name and
its catalog, failure stores `"en"` and the fallback catalog. -/
theorem setLanguage_state (env : Env) (lang : PyStr) (st : LHState) (ln : PyStr)
    (h : resolvedLocaleName env lang = some ln) :
    (env.transLoads ln = true →
      (setLanguage env lang st).1.curLang = ln ∧
        (setLanguage env lang st).1.catalog = Catalog.ofLang ln) ∧
    (env.transLoads ln = false →
      (setLanguage env lang st).1.curLang = "en".toList ∧
        (setLanguage env lang st).1.catalog = Catalog.fallback) := by
  unfold setLanguage
  rw [h]
  constructor
  · intro ht
    simp only [ht, if_true]
    unfold setLocale
    constructor
    · rw [(setLocaleF_curLang env 2 _ _).1]
    · rw [(setLocaleF_curLang env 2 _ _).2]
  · intro ht
    simp only [ht, if_false, Bool.false_eq_true]
    unfold setLocale
    constructor
    · rw [(setLocaleF_curLang env 2 _ _).1]
    · rw [(setLocaleF_curLang env 2 _ _).2]

/-- When the system-default formatting locale can be set and the request
resolves to an actual locale name, `setLanguage` lets no exception
escape. -/
theorem setLanguage_noerror (env : Env) (lang : PyStr) (st : LHState)
    (hok : env.setlocaleOk [] = true)
    (hw : resolvedLocaleName env lang ≠ none) :
    (setLanguage env lang st).2 = none := by
  unfold setLanguage
  cases hres : resolvedLocaleName env lang with
  | none => exact absurd hres hw
  | some ln =>
    unfold setLocale
    exact setLocaleF_noerror env hok 2 _ _

theorem canonicalShape_en : canonicalShape "en".toList := by decide

/-- A normalization of a string with at most one separator (after dash
replacement) yields a canonical code. -/
theorem normalizeLanguage_canonical (x r : PyStr)
    (hc : (pyReplace '-' '_' x).count '_' ≤ 1)
    (h : normalizeLanguage x = some r) : canonicalShape r :=
  ⟨normalizeLanguage_no_dash x r h, (normalizeLanguage_count x r h) ▸ hc⟩

/-- The resolver `getWindowsLanguage` produces only canonical codes when the
environment's locale tables and buffers are well-formed. -/
theorem getWindowsLanguage_canonical (env : Env)
    (hW : ∀ n s, env.windowsLocaleTable n = some s → canonicalShape s)
    (hB : ∀ n, (pyReplace '-' '_' (env.lcidToLocaleNameBuf n)).count '_' ≤ 1)
    (ln : PyStr) (h : getWindowsLanguage env = some ln) : canonicalShape ln := by
  simp only [getWindowsLanguage] at h
  cases ht : env.windowsLocaleTable env.userDefaultUILang with
  | some s =>
    rw [ht] at h
    simp only [Option.some.injEq] at h
    exact h ▸ hW env.userDefaultUILang s ht
  | none =>
    rw [ht] at h
    by_cases hb : env.lcidToLocaleNameBuf env.userDefaultUILang ≠ []
    · rw [if_pos hb] at h
      exact normalizeLanguage_canonical _ ln (hB env.userDefaultUILang) h
    · rw [if_neg hb] at h
      simp only [Option.some.injEq] at h
      exact h ▸ canonicalShape_en

/-- One `setLanguage` call preserves canonicality of `curLang` when its
argument and the environment's locale names are canonical. -/
theorem setLanguage_canonical (env : Env)
    (hW : ∀ n s, env.windowsLocaleTable n = some s → canonicalShape s)
    (hB : ∀ n, (pyReplace '-' '_' (env.lcidToLocaleNameBuf n)).count '_' ≤ 1)
    (lang : PyStr) (st : LHState)
    (hlang : canonicalShape lang) (hst : canonicalShape st.curLang) :
    canonicalShape (setLanguage env lang st).1.curLang := by
  cases hres : resolvedLocaleName env lang with
  | none =>
    have hwin : lang = "Windows".toList := by
      unfold resolvedLocaleName at hres
      by_cases hl : lang = "Windows".toList
      · exact hl
      · rw [if_neg hl] at hres
        exact absurd hres (by simp)
    unfold setLanguage
    rw [hres, if_pos hwin]
    exact hst
  | some ln =>
    have hln : canonicalShape ln := by
      unfold resolvedLocaleName at hres
      by_cases hl : lang = "Windows".toList
      · rw [if_pos hl] at hres
        exact getWindowsLanguage_canonical env hW hB ln hres
      · rw [if_neg hl] at hres
        simp only [Option.some.injEq] at hres
        exact hres ▸ hlang
    rcases setLanguage_state env lang st ln hres with ⟨h1, h2⟩
    by_cases ht : env.transLoads ln = true
    · exact (h1 ht).1 ▸ hln
    · rw [((h2 (by simpa using ht)).1)]
      exact canonicalShape_en

/-- Any sequence of canonical `setLanguage` requests keeps `curLang`
canonical. -/
theorem runSeq_canonical (env : Env)
    (hW : ∀ n s, env.windowsLocaleTable n = some s → canonicalShape s)
    (hB : ∀ n, (pyReplace '-' '_' (env.lcidToLocaleNameBuf n)).count '_' ≤ 1)
    (langs : List PyStr) (st : LHState)
    (hlangs : ∀ l ∈ langs, canonicalShape l) (hst : canonicalShape st.curLang) :
    canonicalShape (runSeq env langs st).curLang := by
  induction langs generalizing st with
  | nil => exact hst
  | cons l ls ih =>
    exact ih _ (fun u hu => hlangs u (List.mem_cons_of_mem l hu))
      (setLanguage_canonical env hW hB l st (hlangs l (List.mem_cons_self l ls)) hst)

theorem insertLe_perm {α : Type} (le : α → α → Bool) (a : α) (l : List α) :
    (insertLe le a l).Perm (a :: l) := by
  induction l with
  | nil => exact List.Perm.refl _
  | cons b bs ih =>
    unfold insertLe
    by_cases h : le a b = true
    · rw [if_pos h]
    · rw [if_neg h]
      exact (List.Perm.cons b ih).trans (List.Perm.swap a b bs)

theorem pySort_perm {α : Type} (le : α → α → Bool) (l : List α) :
    (pySort le l).Perm l := by
  induction l with
  | nil => exact List.Perm.refl _
  | cons a rest ih =>
    exact (insertLe_perm le a (pySort le rest)).trans (List.Perm.cons a ih)

/-- An attempt whose `setlocale` call fails leaves the state unchanged. -/
theorem trySet_fail (env : Env) (name : PyStr) (st : LHState)
    (h : env.setlocaleOk name = false) : trySet env name st = (st, false) := by
  unfold trySet
  rw [h]
  simp

/-- When every explicit `setlocale` attempt fails and the leftover
formatting locale cannot be read back, `setLocale` executes exactly the
final block of lines 252-264: system-default reset when entered with the
current language, one recursive retry on `curLang` otherwise. -/
theorem setLocale_allfail (env : Env) (name : PyStr) (st : LHState)
    (h1 : env.setlocaleOk name = false)
    (h2 : env.setlocaleOk (pyReplace '-' '_' name) = false)
    (h3 : env.setlocaleOk
      (pySplit '_' (if '-' ∈ name then pyReplace '-' '_' name else name)).1 = false)
    (h4 : env.getlocaleOk st.pyLocale = false) :
    setLocale env name st
      = (if name = st.curLang then
          (if env.setlocaleOk [] = true then ({ st with pyLocale := [] }, none)
           else (st, some PyError.localeError))
         else setLocaleF env 1 st.curLang st) := by
  show setLocaleBody env (setLocaleF env 1) name st = _
  have hfin : setLocaleFinale env (setLocaleF env 1) name st
      = (if name = st.curLang then
          (if env.setlocaleOk [] = true then ({ st with pyLocale := [] }, none)
           else (st, some PyError.localeError))
         else setLocaleF env 1 st.curLang st) := by
    unfold setLocaleFinale
    rw [h4]
    simp
  unfold setLocaleBody
  rw [trySet_fail env name st h1]
  simp only [Bool.false_eq_true, if_false]
  unfold setLocaleStep2
  by_cases hd : '-' ∈ name
  · rw [if_pos hd] at h3
    simp only [if_pos hd]
    rw [trySet_fail env _ st h2]
    simp only [Bool.false_eq_true, if_false]
    unfold setLocaleStep3
    by_cases hu : '_' ∈ pyReplace '-' '_' name
    · simp only [if_pos hu]
      rw [trySet_fail env _ st h3]
      simpa using hfin
    · simp only [if_neg hu]
      simpa using hfin
  · rw [if_neg hd] at h3
    simp only [if_neg hd]
    unfold setLocaleStep3
    by_cases hu : '_' ∈ name
    · simp only [if_pos hu]
      rw [trySet_fail env _ st h3]
      simpa using hfin
    · simp only [if_neg hu]
      simpa using hfin

theorem legacy_entries_normalize :
    ∀ p ∈ windowsPrimaryLCIDsToLocaleNames,
      p.2 ≠ [] ∧ normalizeLanguage p.2 = some p.2 := by decide

/-- On a full-table miss, `windowsLCIDToLocaleName` consults the legacy
table at the raw identifier: a hit returns the stored language-only code
unchanged (normalization fixes every entry), and a miss escapes as a
`KeyError`. -/
theorem windowsLCIDToLocaleName_unmasked (env : Env) (lcid : Nat)
    (hmiss : env.windowsLocaleTable lcid = none) :
    windowsLCIDToLocaleName env lcid
      = (match legacyLCIDLookup lcid with
         | some l => Except.ok (some l)
         | none => Except.error PyError.keyError) := by
  unfold windowsLCIDToLocaleName
  rw [hmiss]
  cases hl : legacyLCIDLookup lcid with
  | none => rfl
  | some l =>
    have hpair : ∃ p ∈ windowsPrimaryLCIDsToLocaleNames,
        windowsPrimaryLCIDsToLocaleNames.find? (fun q => q.1 = lcid) = some p ∧
          p.2 = l := by
      unfold legacyLCIDLookup at hl
      cases hf : windowsPrimaryLCIDsToLocaleNames.find? (fun q => q.1 = lcid) with
      | none =>
        rw [hf] at hl
        exact absurd hl (by simp)
      | some p =>
        rw [hf] at hl
        simp only [Option.map_some', Option.some.injEq] at hl
        exact ⟨p, List.mem_of_find?_eq_some hf, rfl, hl⟩
    rcases hpair with ⟨p, hmem, -, hpl⟩
    rcases legacy_entries_normalize p hmem with ⟨hne, hnorm⟩
    dsimp only
    rw [if_pos (hpl ▸ hne), show normalizeLanguage l = some l from hpl ▸ hnorm]

theorem availLocales_en (env : Env) : "en".toList ∈ availLocales env := by
  unfold availLocales
  by_cases h : "en".toList ∈ env.installedLocales
  · rw [if_pos h]
    exact h
  · rw [if_neg h]
    exact (pySort_perm pyStrLe _).mem_iff.mpr
      (List.mem_append_right _ (List.mem_singleton.mpr rfl))

theorem availLocales_no_windows (env : Env)
    (hw : "Windows".toList ∉ env.installedLocales) :
    "Windows".toList ∉ availLocales env := by
  unfold availLocales
  by_cases h : "en".toList ∈ env.installedLocales
  · rw [if_pos h]
    exact hw
  · rw [if_neg h]
    intro hmem
    rcases List.mem_append.mp ((pySort_perm pyStrLe _).mem_iff.mp hmem) with h1 | h2
    · exact hw h1
    · exact absurd (List.mem_singleton.mp h2) (by decide)

theorem availSorted_perm (env : Env) (presentational : Bool) :
    (availSorted env presentational).Perm (availLangPairs env) := by
  unfold availSorted
  dsimp only
  split
  · exact pySort_perm _ _
  · exact List.Perm.refl _

/-- C1 counterexample: with collaborators for which every catalog load,
`setlocale` and `getlocale` fails — all outcomes the claim quantifies
over — `setLanguage("fr")` lets the `locale.Error` of the unguarded
`locale.setlocale(locale.LC_ALL, "")` at source line 259 escape, so it
does not return normally. -/
theorem claim1_counterexample :
    (setLanguage envAllLocaleOpsFail "fr".toList initialState).2
      = some PyError.localeError := by decide

/-- C1 (amended): `setLanguage` and `setLocale` return normally — no
exception escapes — for every outcome of the external collaborators in
which setting the system-default formatting locale (the empty locale
string) succeeds and, when the `"Windows"` sentinel is being resolved,
the OS-supplied locale name does not normalize to no-code. -/
theorem claim1_amended_no_escape (env : Env) (lang : PyStr) (st : LHState)
    (hok : env.setlocaleOk [] = true)
    (hwin : lang = "Windows".toList → getWindowsLanguage env ≠ none) :
    (setLanguage env lang st).2 = none ∧ (setLocale env lang st).2 = none := by
  constructor
  · apply setLanguage_noerror env lang st hok
    unfold resolvedLocaleName
    by_cases hl : lang = "Windows".toList
    · rw [if_pos hl]
      exact hwin hl
    · rw [if_neg hl]
      simp
  · exact setLocaleF_noerror env hok 2 lang st

/-- C1 witness: the amended theorem applied to the baseline environment
and the request `"fr"`. -/
theorem claim1_amended_witness :
    (setLanguage baseEnv "fr".toList initialState).2 = none ∧
      (setLocale baseEnv "fr".toList initialState).2 = none :=
  claim1_amended_no_escape baseEnv "fr".toList initialState (by decide)
    (fun h => absurd h (by decide))

/-- C2: whenever the translation catalog for the resolved locale name
loads, `setLanguage` records that name as the process language state and
installs that catalog; whenever the load fails it installs the built-in
fallback catalog and records `"en"`, so a following `getLanguage()`
returns `"en"` — the recorded state always matches the installed
catalog, never a merely requested name. -/
theorem claim2_state_matches_catalog (env : Env) (lang : PyStr) (st : LHState)
    (ln : PyStr) (h : resolvedLocaleName env lang = some ln) :
    (env.transLoads ln = true →
      getLanguage (setLanguage env lang st).1 = ln ∧
        (setLanguage env lang st).1.catalog = Catalog.ofLang ln) ∧
    (env.transLoads ln = false →
      getLanguage (setLanguage env lang st).1 = "en".toList ∧
        (setLanguage env lang st).1.catalog = Catalog.fallback) :=
  setLanguage_state env lang st ln h

/-- C2 witness: the illegal tag `"zzzz"` with failing catalog loads ends
with `getLanguage() = "en"` and the fallback catalog installed. -/
theorem claim2_witness :
    getLanguage (setLanguage envAllLocaleOpsFail "zzzz".toList initialState).1
        = "en".toList ∧
      (setLanguage envAllLocaleOpsFail "zzzz".toList initialState).1.catalog
        = Catalog.fallback :=
  (claim2_state_matches_catalog envAllLocaleOpsFail "zzzz".toList initialState
    "zzzz".toList (by decide)).2 (by decide)

/-- C3 counterexample: requesting the current language `"en"` while
every explicit `setlocale` attempt fails but `getlocale` still succeeds
on the prior formatting locale: `setLocale` returns with the formatting
locale untouched (`"C"`), so the OS system-default formatting locale is
not set, contrary to the claim. -/
theorem claim3_counterexample :
    envSetFailsGetOk.setlocaleOk "en".toList = false ∧
    initialState.curLang = "en".toList ∧
    setLocale envSetFailsGetOk "en".toList initialState = (initialState, none) ∧
    initialState.pyLocale = "C".toList := by decide

/-- C3 (amended): whenever all explicit attempts fail AND the leftover
formatting locale can no longer be read back by `getlocale`: if the
originally requested code equals `curLang` the OS system-default
formatting locale is set (succeeding whenever the locale setter accepts
the system-default request), and otherwise the whole procedure is
retried once using `curLang`; the recursion terminates — fuel 2 computes
`setLocale` exactly. -/
theorem claim3_amended_fallback :
    (∀ (env : Env) (name : PyStr) (st : LHState),
      env.setlocaleOk name = false →
      env.setlocaleOk (pyReplace '-' '_' name) = false →
      env.setlocaleOk
        (pySplit '_' (if '-' ∈ name then pyReplace '-' '_' name else name)).1 = false →
      env.getlocaleOk st.pyLocale = false →
      env.setlocaleOk [] = true →
      (name = st.curLang → setLocale env name st = ({ st with pyLocale := [] }, none)) ∧
      (name ≠ st.curLang → setLocale env name st = setLocaleF env 1 st.curLang st)) ∧
    (∀ (env : Env) (n : Nat) (name : PyStr) (st : LHState),
      setLocaleF env (n + 2) name st = setLocaleF env 2 name st) := by
  constructor
  · intro env name st h1 h2 h3 h4 hok
    have hchar := setLocale_allfail env name st h1 h2 h3 h4
    constructor
    · intro he
      rw [hchar, if_pos he, if_pos hok]
    · intro hne
      rw [hchar, if_neg hne]
  · exact fun env n name st => setLocaleF_fuel env n name st

/-- C3 witness: in an environment where only the system-default locale
is settable and `getlocale` always fails, requesting the current
language resets the formatting locale to the system default. -/
theorem claim3_amended_witness :
    setLocale envOnlyDefaultSettable "en".toList initialState
      = ({ initialState with pyLocale := [] }, none) :=
  (claim3_amended_fallback.1 envOnlyDefaultSettable "en".toList initialState
    (by decide) (by decide) (by decide) (by decide) (by decide)).1 (by decide)

/-- C4 counterexample: with the full table empty, the identifiers 1 and
1025 share the same low-order primary-language bits (1025 mod 1024 = 1),
yet 1 resolves to `"ar"` while 1025 escapes with a `KeyError` — no
masking is applied before the legacy-table lookup. -/
theorem claim4_counterexample :
    windowsLCIDToLocaleName baseEnv 1 = Except.ok (some "ar".toList) ∧
    windowsLCIDToLocaleName baseEnv 1025 = Except.error PyError.keyError ∧
    1025 % 1024 = 1 := by decide

/-- C4 (amended): on a full-table miss the static legacy table is
consulted at the raw identifier, with no masking: identifiers present in
the table resolve to the stored language-only code (normalization leaves
every entry unchanged), and identifiers absent from it escape with a
`KeyError` rather than resolving like another identifier with the same
primary-language bits. -/
theorem claim4_amended_unmasked (env : Env) (lcid : Nat)
    (hmiss : env.windowsLocaleTable lcid = none) :
    windowsLCIDToLocaleName env lcid
      = (match legacyLCIDLookup lcid with
         | some l => Except.ok (some l)
         | none => Except.error PyError.keyError) :=
  windowsLCIDToLocaleName_unmasked env lcid hmiss

/-- C4 witness: the amended theorem applied at identifier 9 resolves to
`"en"`. -/
theorem claim4_amended_witness :
    windowsLCIDToLocaleName baseEnv 9 = Except.ok (some "en".toList) :=
  (claim4_amended_unmasked baseEnv 9 rfl).trans (by decide)

/-- C5: `localeNameToWindowsLCID` never returns the
`LOCALE_CUSTOM_UNSPECIFIED` sentinel: whenever the OS lookup yields that
value the function returns `LCID_NONE` instead. -/
theorem claim5_no_custom_sentinel (env : Env) (name : PyStr) :
    localeNameToWindowsLCID env name ≠ LOCALE_CUSTOM_UNSPECIFIED ∧
    (env.osLocaleNameToLCID (pyReplace '_' '-' name) = LOCALE_CUSTOM_UNSPECIFIED →
      localeNameToWindowsLCID env name = LCID_NONE) := by
  unfold localeNameToWindowsLCID
  constructor
  · by_cases h : env.osLocaleNameToLCID (pyReplace '_' '-' name)
        = LOCALE_CUSTOM_UNSPECIFIED
    · rw [if_pos h]
      decide
    · rw [if_neg h]
      exact h
  · intro h
    rw [if_pos h]

/-- C5 witness: in an environment whose OS lookup always answers with
the custom-locale sentinel, `"an"` maps to `LCID_NONE`. -/
theorem claim5_witness :
    localeNameToWindowsLCID envCustomSentinel "an".toList = LCID_NONE :=
  (claim5_no_custom_sentinel envCustomSentinel "an".toList).2 (by decide)

/-- C6 counterexample: starting from the initial state, a single
`setLanguage("es-ES")` whose catalog load succeeds leaves a dash in the
process language state — the stored value is the requested string
verbatim, not a canonical code. -/
theorem claim6_counterexample :
    '-' ∈ getLanguage (runSeq baseEnv ["es-ES".toList] initialState) := by decide

/-- C6 (amended): after any sequence of `setLanguage` calls starting
from the initial state, the process language state is canonical — no
dash and at most one underscore separator — provided every requested
language is canonical (the `"Windows"` sentinel itself is) and the
environment's locale tables and buffers only supply names with at most
one separator. -/
theorem claim6_amended_canonical (env : Env) (langs : List PyStr)
    (hW : ∀ n s, env.windowsLocaleTable n = some s → canonicalShape s)
    (hB : ∀ n, (pyReplace '-' '_' (env.lcidToLocaleNameBuf n)).count '_' ≤ 1)
    (hlangs : ∀ l ∈ langs, canonicalShape l) :
    canonicalShape (getLanguage (runSeq env langs initialState)) :=
  runSeq_canonical env hW hB langs initialState hlangs (by decide)

/-- C6 witness: the amended theorem applied to the sequence
`["fr", "Windows"]` in the baseline environment. -/
theorem claim6_amended_witness :
    canonicalShape
      (getLanguage (runSeq baseEnv ["fr".toList, "Windows".toList] initialState)) :=
  claim6_amended_canonical baseEnv ["fr".toList, "Windows".toList]
    (fun _ _ h => Option.noConfusion h) (fun n => by simp [baseEnv, pyReplace])
    (by decide)

/-- C7: `normalizeLanguage("en-GB")` equals `"en_GB"`, and every input
whose first dash/underscore-separated segment lower-cases to the literal
meta-token `"x"` normalizes to no code. -/
theorem claim7_normalize_examples :
    normalizeLanguage "en-GB".toList = some "en_GB".toList ∧
    ∀ x : PyStr, pyLower (pySplit '_' (pyReplace '-' '_' x)).1 = "x".toList →
      normalizeLanguage x = none := by
  constructor
  · decide
  · intro x h
    simp only [normalizeLanguage]
    rw [if_pos h]

/-- C7 witness: `"X-WESTERN"` is filtered to no code. -/
theorem claim7_witness : normalizeLanguage "X-WESTERN".toList = none :=
  claim7_normalize_examples.2 "X-WESTERN".toList (by decide)

/-- C8 counterexample: `normalizeLanguage("en-GB-extra")` succeeds with
`"en_GB_extra"`, which has two underscores — three underscore-separated
segments — because Python's `split` has no maxsplit and `join` re-joins
every segment. -/
theorem claim8_counterexample :
    normalizeLanguage "en-GB-extra".toList = some "en_GB_extra".toList ∧
    "en_GB_extra".toList.count '_' = 2 := by decide

/-- C8 (amended): every code returned by `normalizeLanguage` contains no
dash, and contains exactly as many underscore separators as the
dash-replaced input — so at most one dialect segment exactly when the
input has at most one separator. -/
theorem claim8_amended_shape (x r : PyStr) (h : normalizeLanguage x = some r) :
    '-' ∉ r ∧ r.count '_' = (pyReplace '-' '_' x).count '_' :=
  ⟨normalizeLanguage_no_dash x r h, normalizeLanguage_count x r h⟩

/-- C8 witness: the amended theorem applied to `"en-GB"`. -/
theorem claim8_amended_witness :
    '-' ∉ "en_GB".toList ∧
      "en_GB".toList.count '_' = (pyReplace '-' '_' "en-GB".toList).count '_' :=
  claim8_amended_shape "en-GB".toList "en_GB".toList (by decide)

/-- C9: `normalizeLanguage` is idempotent — re-normalizing any code it
returns yields that code again. -/
theorem claim9_idempotent (x r : PyStr) (h : normalizeLanguage x = some r) :
    normalizeLanguage r = some r :=
  normalizeLanguage_idem x r h

/-- C9 witness: idempotence at `"en-GB"`, whose normalization `"en_GB"`
re-normalizes to itself. -/
theorem claim9_witness : normalizeLanguage "en_GB".toList = some "en_GB".toList :=
  claim9_idempotent "en-GB".toList "en_GB".toList (by decide)

/-- C10 counterexample: with an installed catalog directory literally
named `Windows`, the returned list contains two entries whose code is
`"Windows"`, not exactly one. -/
theorem claim10_counterexample :
    (getAvailableLanguages envWindowsDir false).countP
      (fun p => p.1 = "Windows".toList) = 2 := by decide

/-- C10 (amended): for every set of installed catalogs not itself
containing one named `"Windows"`, and both values of the presentational
flag, the list contains an entry whose code is `"en"`, contains exactly
one entry with the OS-default sentinel code `"Windows"`, and that
sentinel entry is at position 0. -/
theorem claim10_amended_listing (env : Env) (presentational : Bool)
    (hw : "Windows".toList ∉ env.installedLocales) :
    (∃ d, ("en".toList, d) ∈ getAvailableLanguages env presentational) ∧
    (getAvailableLanguages env presentational).countP
        (fun p => p.1 = "Windows".toList) = 1 ∧
    (∃ rest, getAvailableLanguages env presentational
        = ("Windows".toList, env.userDefaultLabel) :: rest) := by
  refine ⟨?_, ?_, ⟨_, rfl⟩⟩
  · have h1 : ("en".toList, getLanguageDescription env "en".toList)
        ∈ availLangPairs env :=
      List.mem_map_of_mem _ (availLocales_en env)
    have h2 : ("en".toList, getLanguageDescription env "en".toList)
        ∈ availSorted env presentational :=
      (availSorted_perm env presentational).mem_iff.mpr h1
    exact ⟨_, List.mem_cons_of_mem _ (List.mem_map_of_mem _ h2)⟩
  · unfold getAvailableLanguages
    rw [List.countP_cons]
    have hz : ((availSorted env presentational).map (fun p =>
        (p.1, match p.2 with
              | some desc => pyFormat env.fullDescPattern desc p.1
              | none => p.1))).countP (fun p => p.1 = "Windows".toList) = 0 := by
      rw [List.countP_map]
      apply List.countP_eq_zero.mpr
      intro p hp
      have hp1 : p ∈ availLangPairs env :=
        (availSorted_perm env presentational).mem_iff.mp hp
      rcases List.mem_map.mp hp1 with ⟨lc, hlc, rfl⟩
      simp only [Function.comp]
      intro heq
      have : lc = "Windows".toList := by simpa using heq
      exact availLocales_no_windows env hw (this ▸ hlc)
    rw [hz]
    simp

/-- C10 witness: the amended theorem applied to the baseline environment
with no installed catalogs. -/
theorem claim10_amended_witness :
    (∃ d, ("en".toList, d) ∈ getAvailableLanguages baseEnv true) ∧
    (getAvailableLanguages baseEnv true).countP
        (fun p => p.1 = "Windows".toList) = 1 ∧
    (∃ rest, getAvailableLanguages baseEnv true
        = ("Windows".toList, baseEnv.userDefaultLabel) :: rest) :=
  claim10_amended_listing baseEnv true (by decide)

end LangHandler
